import Mathlib

/-!
Verification of the upload-URL issuance service, the upload agent and the
cleanup sweep of the azure-blob-SAS-upload repository, as a shallow
embedding of the three programs.

Conventions of the embedding: JavaScript strings are modelled as
`List Char`; millisecond timestamps as `Nat`; each call to `Date.now()` or
`new Date()` reads the next value of an explicit clock oracle; the
`Math.random()`-derived suffixes, the vendor SDK's signing and
serialisation step, and every network or storage operation are oracle
parameters, with thrown exceptions modelled by `Except`.
-/

/-- JavaScript strings, modelled as lists of characters. -/
abbrev JStr := List Char

/-- Coercion of a Lean string literal into the `JStr` model. -/
def str (s : String) : JStr := s.data

/-- Model of the JavaScript `String.prototype.split` with a
single-character separator: splits on every occurrence, keeping empty
pieces, and returns `[""]` on the empty string. -/
def splitOnChar (sep : Char) : JStr → List JStr
  | [] => [[]]
  | c :: cs =>
    if c = sep then [] :: splitOnChar sep cs
    else (c :: (splitOnChar sep cs).headD []) :: (splitOnChar sep cs).tail

/-- Model of the JavaScript `String.prototype.replace` with a plain-string
pattern: replaces the first occurrence of `pat` (if any) by `rep` and
leaves the rest of the string unchanged. -/
def replaceFirst (pat rep : JStr) : JStr → JStr
  | [] => []
  | c :: cs =>
    if List.isPrefixOf pat (c :: cs) then rep ++ (c :: cs).drop pat.length
    else c :: replaceFirst pat rep cs

/-- Numeric value of a list of decimal digit characters. -/
def digitsToNat (ds : JStr) : Nat :=
  ds.foldl (fun a c => a * 10 + (c.toNat - 48)) 0

/-- Model of the JavaScript `parseInt` applied to an optional query-string
value (an absent parameter gives `NaN`, modelled as `none`): leading
whitespace is skipped, an optional sign and then the leading decimal
digits are read, and the result is `NaN` (`none`) when no digit is found.
The hexadecimal `0x` prefix form of `parseInt` is not modelled; no claim
depends on it. -/
def parseIntJS : Option JStr → Option Int
  | none => none
  | some s =>
    let t := s.dropWhile (fun c => c.isWhitespace)
    let su : Int × JStr :=
      match t with
      | '-' :: r => (-1, r)
      | '+' :: r => (1, r)
      | r => (1, r)
    let ds := su.2.takeWhile (fun c => c.isDigit)
    if ds.isEmpty then none else some (su.1 * (digitsToNat ds : Int))

/-- Translation of `parseConnectionString` from the server
(src/unnamed/part_001): the string is split on every ';', each part is
split on every '=' and only the first two pieces are kept
(`const [key, value] = p.split("=")`), and the pair is stored when both
pieces are non-empty (JavaScript truthiness of strings). Object property
assignment is modelled by prepending, `jsGet` returning the most recent
binding; `parsePart` is the loop body, `parseConnectionString` the loop
over the ';'-separated parts. -/
def parsePart (out : List (JStr × JStr)) (p : JStr) : List (JStr × JStr) :=
  match splitOnChar '=' p with
  | key :: value :: _ =>
    if key ≠ [] ∧ value ≠ [] then (key, value) :: out else out
  | _ => out

/-- Loop of `parseConnectionString` over the ';'-separated parts. -/
def parseConnectionString (connectionString : JStr) : List (JStr × JStr) :=
  (splitOnChar ';' connectionString).foldl parsePart []

/-- Lookup of a property on the object built by `parseConnectionString`. -/
def jsGet : List (JStr × JStr) → JStr → Option JStr
  | [], _ => none
  | (k, v) :: rest, key => if k = key then some v else jsGet rest key

/-- Construction of the `StorageSharedKeyCredential` pair (account name,
account key) from the parsed connection string, as the server does at
startup; `none` models an absent field (`undefined` in JavaScript). -/
def sharedKeyCredentialOf (connectionString : JStr) : Option (JStr × JStr) :=
  let parsed := parseConnectionString connectionString
  match jsGet parsed (str "AccountName"), jsGet parsed (str "AccountKey") with
  | some n, some k => some (n, k)
  | _, _ => none

/-- Permission flags of a blob SAS token (vendor SDK
`BlobSASPermissions`). -/
structure BlobSASPermissions where
  read : Bool := false
  add : Bool := false
  create : Bool := false
  write : Bool := false
  delete : Bool := false
deriving DecidableEq

/-- Model of `BlobSASPermissions.parse`: one flag per character of the
permission string. -/
def BlobSASPermissions.parse (s : JStr) : BlobSASPermissions :=
  s.foldl
    (fun p c =>
      if c = 'r' then { p with read := true }
      else if c = 'a' then { p with add := true }
      else if c = 'c' then { p with create := true }
      else if c = 'w' then { p with write := true }
      else if c = 'd' then { p with delete := true }
      else p)
    {}

/-- Protocol restriction of a SAS token (vendor SDK `SASProtocol`). -/
inductive SASProtocol where
  | https
  | httpsAndHttp
deriving DecidableEq

/-- Fields of the SAS token as the server passes them to
`generateBlobSASQueryParameters`. -/
structure SASQueryParams where
  containerName : JStr
  blobName : JStr
  permissions : BlobSASPermissions
  protocol : SASProtocol
  startsOn : Nat
  expiresOn : Nat
deriving DecidableEq

/-- Record of the issuance response (`{ blobName, uploadUrl, fileUrl }`). -/
structure UploadRecord where
  blobName : JStr
  uploadUrl : JStr
  fileUrl : JStr
deriving DecidableEq

/-- Blob name template literal of the server,
`image-<Date.now()>-<random suffix>.jpg`. -/
def blobNameOf (ts : Nat) (suffix : JStr) : JStr :=
  str "image-" ++ (Nat.repr ts).data ++ '-' :: (suffix ++ str ".jpg")

/-- Translation of the per-record body of the `map` in the
`POST /upload-urls` handler. The `i`-th record makes three clock reads, in
source order: `Date.now()` inside the blob name (read `3*i`), `new Date()`
for `startsOn` (read `3*i + 1`), and the inner `new Date()` from whose
value `expiresOn` is computed (read `3*i + 2`). It draws one random suffix
`rand i` (modelling `Math.random().toString(36).substring(2, 15)`);
`tokStr` models the SDK serialisation-and-signing
`generateBlobSASQueryParameters(...).toString()`, and `endpoint` the base
URL of the account so that `blobClient.url` is
`endpoint/images/<blobName>`. -/
def generateRecord (clock : Nat → Nat) (rand : Nat → JStr)
    (tokStr : SASQueryParams → JStr) (endpoint : JStr) (i : Nat) :
    SASQueryParams × UploadRecord :=
  let blobName := blobNameOf (clock (3 * i)) (rand i)
  let blobUrl := endpoint ++ '/' :: (str "images" ++ '/' :: blobName)
  let sasToken : SASQueryParams :=
    { containerName := str "images"
      blobName := blobName
      permissions := BlobSASPermissions.parse (str "w")
      protocol := SASProtocol.httpsAndHttp
      startsOn := clock (3 * i + 1)
      expiresOn := clock (3 * i + 2) + 5 * 60 * 1000 }
  (sasToken,
    { blobName := blobName
      uploadUrl := blobUrl ++ '?' :: tokStr sasToken
      fileUrl := blobUrl })

/-- Translation of `const numUrls = parseInt(count as string) || 1`: `NaN`
(modelled `none`) and `0` are falsy and replaced by the default `1`. -/
def numUrlsOf (count : Option JStr) : Int :=
  match parseIntJS count with
  | none => 1
  | some n => if n = 0 then 1 else n

/-- Model of `Array.from({length: n})` as the handler uses it: `ToLength`
clamps a negative length to zero, and the Array constructor throws
`RangeError: Invalid array length` for every length of 2^32 (written
4294967296) or more — inside the handler's `try`, so the throw becomes
the HTTP 500 answer. -/
def jsArrayLength (n : Int) : Except JStr Nat :=
  if n < 4294967296 then Except.ok n.toNat
  else Except.error (str "Invalid array length")

/-- SAS tokens paired with the upload-URL records produced by one
successful run of the `POST /upload-urls` handler body; no record is
produced when the Array constructor throws. -/
def issuedPairs (clock : Nat → Nat) (rand : Nat → JStr)
    (tokStr : SASQueryParams → JStr) (endpoint : JStr)
    (count : Option JStr) : List (SASQueryParams × UploadRecord) :=
  match jsArrayLength (numUrlsOf count) with
  | Except.ok len => (List.range len).map (generateRecord clock rand tokStr endpoint)
  | Except.error _ => []

/-- Response of the issuance endpoint: `res.json({ urls })` on success,
HTTP 500 with the error message otherwise. -/
inductive HttpResponse where
  | json (urls : List UploadRecord)
  | error500 (msg : JStr)
deriving DecidableEq

/-- Translation of the `POST /upload-urls` handler: `createRes` models the
outcome of `containerClient.createIfNotExists()` (the side-effecting SDK
call inside the `try`); a throw of that call, like the RangeError of the
Array constructor on a length of 2^32 or more, is caught and answered as
HTTP 500, otherwise the handler answers `res.json({ urls })`. -/
def handleUploadUrls (createRes : Except JStr Unit) (clock : Nat → Nat)
    (rand : Nat → JStr) (tokStr : SASQueryParams → JStr) (endpoint : JStr)
    (count : Option JStr) : HttpResponse :=
  match createRes with
  | Except.error e => HttpResponse.error500 e
  | Except.ok _ =>
    match jsArrayLength (numUrlsOf count) with
    | Except.error e => HttpResponse.error500 e
    | Except.ok _ =>
      HttpResponse.json
        ((issuedPairs clock rand tokStr endpoint count).map (fun p => p.2))

/-- Records carried by a response (`[]` for the error page). -/
def responseRecords : HttpResponse → List UploadRecord
  | HttpResponse.json urls => urls
  | HttpResponse.error500 _ => []

/-- Translation of the client's hostname rewrite (src/client.js):
`urlData.uploadUrl.replace('azurite:10000', 'localhost:10000')`. -/
def clientUploadUrl (uploadUrl : JStr) : JStr :=
  replaceFirst (str "azurite:10000") (str "localhost:10000") uploadUrl

/-- Outcome of one `fetch` PUT as observed by the client: either an HTTP
response (status, status text, body text) or a thrown transport-level
error. -/
inductive FetchResult where
  | response (status : Nat) (statusText : JStr) (body : JStr)
  | thrown (msg : JStr)
deriving DecidableEq

/-- Report the client emits for one record. -/
inductive UploadOutcome where
  | success (blobName fileUrl : JStr)
  | failure (blobName : JStr) (status : Nat) (statusText : JStr) (body : JStr)
  | errorCaught (blobName : JStr) (msg : JStr)
deriving DecidableEq

/-- Translation of the body of the client's per-record `try`/`catch`:
`uploadResponse.ok` holds exactly for statuses 200–299; a thrown
transport error is caught and reported for that record alone. -/
def processOne (u : UploadRecord) (f : FetchResult) : UploadOutcome :=
  match f with
  | FetchResult.response status statusText body =>
    if 200 ≤ status ∧ status < 300 then UploadOutcome.success u.blobName u.fileUrl
    else UploadOutcome.failure u.blobName status statusText body
  | FetchResult.thrown msg => UploadOutcome.errorCaught u.blobName msg

/-- Translation of the client's sequential
`for (const urlData of data.urls)` loop; `net i` is the outcome of the
single `fetch` made for the `i`-th record (the agent performs no retry:
the oracle is consulted once per record). -/
def clientLoop (net : Nat → FetchResult) : Nat → List UploadRecord → List UploadOutcome
  | _, [] => []
  | i, u :: us => processOne u (net i) :: clientLoop net (i + 1) us

namespace Cleanup

/-- Summary state of one completed sweep: whether the run ended early with
nothing to do, the number of blobs found, the blob names passed to
`blobClient.delete` in order, and the two counters of the delete loop. -/
structure CleanupReport where
  nothingToDo : Bool
  found : Nat
  deletesAttempted : List JStr
  successCount : Nat
  failCount : Nat
deriving DecidableEq

/-- Translation of the per-blob delete loop of `cleanupContainer`
(src/unnamed/part_002): each collected name is passed to
`blobClient.delete` once, a throw is caught and counted, and the loop
continues; `delRes i` is the outcome of the delete issued in iteration
`i`. Returns the names attempted in order together with
`(successCount, failCount)`. -/
def deleteLoop (delRes : Nat → Except JStr Unit) :
    Nat → List JStr → List JStr × Nat × Nat
  | _, [] => ([], 0, 0)
  | i, b :: bs =>
    let rest := deleteLoop delRes (i + 1) bs
    match delRes i with
    | Except.ok _ => (b :: rest.1, rest.2.1 + 1, rest.2.2)
    | Except.error _ => (b :: rest.1, rest.2.1, rest.2.2 + 1)

/-- Translation of `cleanupContainer`: `existsRes` models
`containerClient.exists()`, `listRes` the collection of blob names by the
`for await` over `listBlobsFlat()` (an enumeration throw escapes before
any delete is attempted), and `delRes` the per-blob deletes. An uncaught
throw is the `Except.error` case. -/
def cleanupContainer (existsRes : Except JStr Bool)
    (listRes : Except JStr (List JStr))
    (delRes : Nat → Except JStr Unit) : Except JStr CleanupReport := do
  let containerExists ← existsRes
  if containerExists = false then
    return { nothingToDo := true, found := 0, deletesAttempted := []
             successCount := 0, failCount := 0 }
  let blobsToDelete ← listRes
  if blobsToDelete.length = 0 then
    return { nothingToDo := true, found := 0, deletesAttempted := []
             successCount := 0, failCount := 0 }
  let r := deleteLoop delRes 0 blobsToDelete
  return { nothingToDo := false, found := blobsToDelete.length
           deletesAttempted := r.1, successCount := r.2.1, failCount := r.2.2 }

/-- Translation of `main` of the cleanup script: the `catch` around
`cleanupContainer` calls `process.exit(1)`; otherwise the process
terminates normally with status 0. The result pairs the exit status with
the report of a completed run. -/
def main (existsRes : Except JStr Bool) (listRes : Except JStr (List JStr))
    (delRes : Nat → Except JStr Unit) : Nat × Option CleanupReport :=
  match cleanupContainer existsRes listRes delRes with
  | Except.ok r => (0, some r)
  | Except.error _ => (1, none)

/-- Whether the enumeration phase of the sweep (the container existence
check or the listing of the blobs) threw. -/
def enumerationThrew (existsRes : Except JStr Bool)
    (listRes : Except JStr (List JStr)) : Prop :=
  (∃ e, existsRes = Except.error e) ∨
    (existsRes = Except.ok true ∧ ∃ e, listRes = Except.error e)

end Cleanup

/-! Helper lemmas about the modelled JavaScript string primitives. -/

theorem splitOnChar_cons (sep c : Char) (cs : JStr) :
    splitOnChar sep (c :: cs) =
      if c = sep then [] :: splitOnChar sep cs
      else (c :: (splitOnChar sep cs).headD []) :: (splitOnChar sep cs).tail := rfl

theorem splitOnChar_not_mem {sep : Char} {l : JStr} (h : sep ∉ l) :
    splitOnChar sep l = [l] := by
  induction l with
  | nil => rfl
  | cons c cs ih =>
    have hc : c ≠ sep := fun e => h (by simp [e])
    have hcs : sep ∉ cs := fun m => h (List.mem_cons_of_mem _ m)
    rw [splitOnChar_cons, if_neg hc, ih hcs]
    rfl

theorem splitOnChar_append {sep : Char} {l₁ : JStr} (l₂ : JStr) (h : sep ∉ l₁) :
    splitOnChar sep (l₁ ++ sep :: l₂) = l₁ :: splitOnChar sep l₂ := by
  induction l₁ with
  | nil =>
    rw [List.nil_append, splitOnChar_cons, if_pos rfl]
  | cons c cs ih =>
    have hc : c ≠ sep := fun e => h (by simp [e])
    have hcs : sep ∉ cs := fun m => h (List.mem_cons_of_mem _ m)
    rw [List.cons_append, splitOnChar_cons, if_neg hc, ih hcs]
    rfl

theorem digitChar_ne_dash (m : Nat) (hm : m < 10) : Nat.digitChar m ≠ '-' := by
  interval_cases m <;> decide

theorem toDigitsCore_ne_dash (fuel : Nat) :
    ∀ (n : Nat) (ds : List Char), (∀ c ∈ ds, c ≠ '-') →
    ∀ c ∈ Nat.toDigitsCore 10 fuel n ds, c ≠ '-' := by
  induction fuel with
  | zero =>
    intro n ds hds c hc
    exact hds c hc
  | succ fuel ih =>
    intro n ds hds c hc
    have hds' : ∀ c ∈ Nat.digitChar (n % 10) :: ds, c ≠ '-' := by
      intro c hc
      rcases List.mem_cons.mp hc with rfl | hm
      · exact digitChar_ne_dash _ (Nat.mod_lt n (by decide))
      · exact hds c hm
    simp only [Nat.toDigitsCore] at hc
    by_cases h : n / 10 = 0
    · rw [if_pos h] at hc
      exact hds' c hc
    · rw [if_neg h] at hc
      exact ih (n / 10) _ hds' c hc

theorem repr_ne_dash (n : Nat) : ∀ c ∈ (Nat.repr n).data, c ≠ '-' := by
  have h : (Nat.repr n).data = Nat.toDigitsCore 10 (n + 1) n [] := rfl
  rw [h]
  exact toDigitsCore_ne_dash (n + 1) n [] (by intro c hc; cases hc)

theorem append_sep_inj {sep : Char} :
    ∀ {l₁ l₂ r₁ r₂ : JStr}, sep ∉ l₁ → sep ∉ l₂ →
    l₁ ++ sep :: r₁ = l₂ ++ sep :: r₂ → l₁ = l₂ ∧ r₁ = r₂ := by
  intro l₁
  induction l₁ with
  | nil =>
    intro l₂ r₁ r₂ h1 h2 he
    cases l₂ with
    | nil => simpa using he
    | cons b bs =>
      simp only [List.nil_append, List.cons_append, List.cons.injEq] at he
      exact absurd (by rw [he.1]; exact List.mem_cons_self b bs) h2
  | cons a as ih =>
    intro l₂ r₁ r₂ h1 h2 he
    cases l₂ with
    | nil =>
      simp only [List.cons_append, List.nil_append, List.cons.injEq] at he
      exact absurd (by rw [← he.1]; exact List.mem_cons_self a as) h1
    | cons b bs =>
      simp only [List.cons_append, List.cons.injEq] at he
      have h1' : sep ∉ as := fun m => h1 (List.mem_cons_of_mem _ m)
      have h2' : sep ∉ bs := fun m => h2 (List.mem_cons_of_mem _ m)
      obtain ⟨hl, hr⟩ := ih h1' h2' he.2
      exact ⟨by rw [he.1, hl], hr⟩

theorem blobNameOf_suffix_inj {t₁ t₂ : Nat} {s₁ s₂ : JStr}
    (h : blobNameOf t₁ s₁ = blobNameOf t₂ s₂) : s₁ = s₂ := by
  unfold blobNameOf at h
  rw [List.append_assoc, List.append_assoc] at h
  have h' := List.append_cancel_left h
  have hd₁ : '-' ∉ (Nat.repr t₁).data := fun m => repr_ne_dash t₁ '-' m rfl
  have hd₂ : '-' ∉ (Nat.repr t₂).data := fun m => repr_ne_dash t₂ '-' m rfl
  obtain ⟨-, h2⟩ := append_sep_inj hd₁ hd₂ h'
  exact List.append_cancel_right h2

theorem replaceFirst_cons (pat rep : JStr) (c : Char) (cs : JStr) :
    replaceFirst pat rep (c :: cs) =
      if List.isPrefixOf pat (c :: cs) then rep ++ (c :: cs).drop pat.length
      else c :: replaceFirst pat rep cs := rfl

theorem replaceFirst_at {c : Char} (pt rep : JStr) :
    ∀ (pre suf : JStr), c ∉ pre →
    replaceFirst (c :: pt) rep (pre ++ (c :: pt) ++ suf) = pre ++ rep ++ suf := by
  intro pre
  induction pre with
  | nil =>
    intro suf _
    rw [List.nil_append, List.nil_append, List.cons_append, replaceFirst_cons]
    have hpre : List.isPrefixOf (c :: pt) (c :: (pt ++ suf)) = true :=
      List.isPrefixOf_iff_prefix.mpr
        (List.cons_prefix_cons.mpr ⟨rfl, List.prefix_append pt suf⟩)
    rw [if_pos hpre]
    have hdrop : (c :: (pt ++ suf)).drop (c :: pt).length = suf := by
      simp only [List.length_cons, List.drop_succ_cons]
      exact List.drop_left pt suf
    rw [hdrop]
  | cons a pre' ih =>
    intro suf h
    have hca : c ≠ a := fun e => h (by rw [e]; exact List.mem_cons_self a pre')
    have h' : c ∉ pre' := fun m => h (List.mem_cons_of_mem _ m)
    have e1 : (a :: pre') ++ (c :: pt) ++ suf = a :: (pre' ++ (c :: pt) ++ suf) := by
      simp only [List.cons_append]
    have e2 : (a :: pre') ++ rep ++ suf = a :: (pre' ++ rep ++ suf) := by
      simp only [List.cons_append]
    rw [e1, e2, replaceFirst_cons]
    have hnp : List.isPrefixOf (c :: pt) (a :: (pre' ++ (c :: pt) ++ suf)) = false := by
      rw [List.isPrefixOf_cons₂]
      simp [hca]
    rw [if_neg (by rw [hnp]; exact Bool.false_ne_true)]
    rw [ih suf h']

/-! Facts about the issuance endpoint. -/

theorem issuedPairs_ok_eq (clock : Nat → Nat) (rand : Nat → JStr)
    (tokStr : SASQueryParams → JStr) (endpoint : JStr) (count : Option JStr)
    (len : Nat) (he : jsArrayLength (numUrlsOf count) = Except.ok len) :
    issuedPairs clock rand tokStr endpoint count =
      (List.range len).map (generateRecord clock rand tokStr endpoint) := by
  unfold issuedPairs
  rw [he]

theorem issuedPairs_error_eq (clock : Nat → Nat) (rand : Nat → JStr)
    (tokStr : SASQueryParams → JStr) (endpoint : JStr) (count : Option JStr)
    (e : JStr) (he : jsArrayLength (numUrlsOf count) = Except.error e) :
    issuedPairs clock rand tokStr endpoint count = [] := by
  unfold issuedPairs
  rw [he]

theorem issuedPairs_getElem? (clock : Nat → Nat) (rand : Nat → JStr)
    (tokStr : SASQueryParams → JStr) (endpoint : JStr) (count : Option JStr)
    (i : Nat) (h : i < (issuedPairs clock rand tokStr endpoint count).length) :
    (issuedPairs clock rand tokStr endpoint count)[i]? =
      some (generateRecord clock rand tokStr endpoint i) := by
  cases he : jsArrayLength (numUrlsOf count) with
  | ok len =>
    rw [issuedPairs_ok_eq clock rand tokStr endpoint count len he] at h ⊢
    simp only [List.length_map, List.length_range] at h
    simp [List.getElem?_map, List.getElem?_range h]
  | error e =>
    rw [issuedPairs_error_eq clock rand tokStr endpoint count e he] at h
    exact absurd h (by simp)

theorem issuedPairs_get (clock : Nat → Nat) (rand : Nat → JStr)
    (tokStr : SASQueryParams → JStr) (endpoint : JStr) (count : Option JStr)
    (i : Nat) (h : i < (issuedPairs clock rand tokStr endpoint count).length) :
    (issuedPairs clock rand tokStr endpoint count).get ⟨i, h⟩ =
      generateRecord clock rand tokStr endpoint i := by
  have h? := issuedPairs_getElem? clock rand tokStr endpoint count i h
  rw [List.getElem?_eq_getElem h] at h?
  rw [List.get_eq_getElem]
  exact Option.some.inj h?

theorem responseRecords_ok (clock : Nat → Nat) (rand : Nat → JStr)
    (tokStr : SASQueryParams → JStr) (endpoint : JStr) (count : Option JStr) :
    responseRecords (handleUploadUrls (Except.ok ()) clock rand tokStr endpoint count) =
      (issuedPairs clock rand tokStr endpoint count).map (fun p => p.2) := by
  unfold responseRecords handleUploadUrls issuedPairs
  cases jsArrayLength (numUrlsOf count) with
  | ok len => rfl
  | error e => rfl

/-- C1 (amended): every SAS token produced by the issuance endpoint is
scoped to container "images" and to exactly the blob name of its own
record, carries write-only permission, allows both HTTP and HTTPS, and is
embedded in that record's uploadURL after the '?' separator; its startsOn
equals the clock reading taken for it at generation, and its expiresOn is
exactly five minutes after the separate, later clock reading taken while
computing the expiry — so whenever those two readings return the same
millisecond, expiresOn is exactly startsOn plus five minutes. (The claim's
unconditional "expiresOn = startsOn + 5min" fails because the code reads
the clock twice, see the counterexample.) -/
theorem c1_token_scope_window (clock : Nat → Nat) (rand : Nat → JStr)
    (tokStr : SASQueryParams → JStr) (endpoint : JStr) (count : Option JStr)
    (i : Nat) (h : i < (issuedPairs clock rand tokStr endpoint count).length) :
    ((issuedPairs clock rand tokStr endpoint count).get ⟨i, h⟩).1.containerName = str "images" ∧
    ((issuedPairs clock rand tokStr endpoint count).get ⟨i, h⟩).1.blobName =
      ((issuedPairs clock rand tokStr endpoint count).get ⟨i, h⟩).2.blobName ∧
    ((issuedPairs clock rand tokStr endpoint count).get ⟨i, h⟩).1.permissions =
      { read := false, add := false, create := false, write := true, delete := false } ∧
    ((issuedPairs clock rand tokStr endpoint count).get ⟨i, h⟩).1.protocol =
      SASProtocol.httpsAndHttp ∧
    ((issuedPairs clock rand tokStr endpoint count).get ⟨i, h⟩).2.uploadUrl =
      ((issuedPairs clock rand tokStr endpoint count).get ⟨i, h⟩).2.fileUrl ++
        '?' :: tokStr ((issuedPairs clock rand tokStr endpoint count).get ⟨i, h⟩).1 ∧
    ((issuedPairs clock rand tokStr endpoint count).get ⟨i, h⟩).1.startsOn =
      clock (3 * i + 1) ∧
    ((issuedPairs clock rand tokStr endpoint count).get ⟨i, h⟩).1.expiresOn =
      clock (3 * i + 2) + 5 * 60 * 1000 ∧
    (clock (3 * i + 1) = clock (3 * i + 2) →
      ((issuedPairs clock rand tokStr endpoint count).get ⟨i, h⟩).1.expiresOn =
        ((issuedPairs clock rand tokStr endpoint count).get ⟨i, h⟩).1.startsOn + 5 * 60 * 1000) := by
  rw [issuedPairs_get]
  have hperm : BlobSASPermissions.parse (str "w") =
      { read := false, add := false, create := false, write := true, delete := false } := by
    decide
  refine ⟨rfl, rfl, hperm, rfl, rfl, rfl, rfl, ?_⟩
  intro hc
  show clock (3 * i + 2) + 5 * 60 * 1000 = clock (3 * i + 1) + 5 * 60 * 1000
  rw [hc]

/-- C1 witness: the amended statement applied to a concrete request for one
URL, with a clock that returns the same value on both readings. -/
theorem c1_token_scope_window_witness :
    ((issuedPairs (fun _ => 7) (fun _ => str "abc") (fun _ => str "tok")
        (str "http://azurite:10000/devstoreaccount1") (some (str "1"))).get
      ⟨0, by decide⟩).1.expiresOn =
    ((issuedPairs (fun _ => 7) (fun _ => str "abc") (fun _ => str "tok")
        (str "http://azurite:10000/devstoreaccount1") (some (str "1"))).get
      ⟨0, by decide⟩).1.startsOn + 5 * 60 * 1000 :=
  (c1_token_scope_window (fun _ => 7) (fun _ => str "abc") (fun _ => str "tok")
    (str "http://azurite:10000/devstoreaccount1") (some (str "1")) 0
    (by decide)).2.2.2.2.2.2.2 rfl

/-- C1 counterexample: with a clock that advances one millisecond between
the `startsOn` reading and the `expiresOn` reading (a realistic,
monotone clock), the issued token's expiresOn is not startsOn plus five
minutes, refuting the claim's "expiresOn exactly 5 minutes after
startsOn". -/
theorem c1_counterexample :
    ((issuedPairs (fun k => k) (fun _ => str "abc") (fun _ => str "tok")
        (str "http://azurite:10000/devstoreaccount1") (some (str "1"))).get
      ⟨0, by decide⟩).1.expiresOn ≠
    ((issuedPairs (fun k => k) (fun _ => str "abc") (fun _ => str "tok")
        (str "http://azurite:10000/devstoreaccount1") (some (str "1"))).get
      ⟨0, by decide⟩).1.startsOn + 5 * 60 * 1000 := by decide

theorem responseRecords_get (clock : Nat → Nat) (rand : Nat → JStr)
    (tokStr : SASQueryParams → JStr) (endpoint : JStr) (count : Option JStr)
    (i : Nat)
    (hi : i < (responseRecords (handleUploadUrls (Except.ok ()) clock rand tokStr endpoint count)).length) :
    (responseRecords (handleUploadUrls (Except.ok ()) clock rand tokStr endpoint count)).get ⟨i, hi⟩ =
      (generateRecord clock rand tokStr endpoint i).2 := by
  have hi' : i < (issuedPairs clock rand tokStr endpoint count).length := by
    have h := hi
    rw [responseRecords_ok, List.length_map] at h
    exact h
  have h? : (responseRecords (handleUploadUrls (Except.ok ()) clock rand tokStr
      endpoint count))[i]? = some ((generateRecord clock rand tokStr endpoint i).2) := by
    rw [responseRecords_ok, List.getElem?_map,
      issuedPairs_getElem? clock rand tokStr endpoint count i hi']
    rfl
  rw [List.getElem?_eq_getElem hi] at h?
  rw [List.get_eq_getElem]
  exact Option.some.inj h?

/-- C2 (amended): for every request whose count parameter parses to an
integer N with 1 ≤ N < 2^32, the response carries exactly N records, and
any two records whose random suffix draws differ have distinct blobNames
(with identical timestamp and suffix draws, names can collide — see the
counterexample; uniqueness is probabilistic, not guaranteed); for a count
of 2^32 or more the Array constructor's RangeError is caught and the
endpoint answers HTTP 500 instead of returning records. -/
theorem c2_count_and_distinct_names (clock : Nat → Nat) (rand : Nat → JStr)
    (tokStr : SASQueryParams → JStr) (endpoint : JStr) (count : Option JStr)
    (N : Int) (hparse : parseIntJS count = some N) (hN : 1 ≤ N)
    (hlt : N < 4294967296) :
    (((responseRecords (handleUploadUrls (Except.ok ()) clock rand tokStr endpoint count)).length : Int) = N) ∧
    (∀ i j
      (hi : i < (responseRecords (handleUploadUrls (Except.ok ()) clock rand tokStr endpoint count)).length)
      (hj : j < (responseRecords (handleUploadUrls (Except.ok ()) clock rand tokStr endpoint count)).length),
      ((responseRecords (handleUploadUrls (Except.ok ()) clock rand tokStr endpoint count)).get ⟨i, hi⟩).blobName =
        ((responseRecords (handleUploadUrls (Except.ok ()) clock rand tokStr endpoint count)).get ⟨j, hj⟩).blobName →
      rand i = rand j) ∧
    ∀ (count2 : Option JStr) (M : Int), parseIntJS count2 = some M →
      4294967296 ≤ M →
      handleUploadUrls (Except.ok ()) clock rand tokStr endpoint count2 =
        HttpResponse.error500 (str "Invalid array length") := by
  have hnum : numUrlsOf count = N := by
    unfold numUrlsOf
    rw [hparse]
    show (if N = 0 then 1 else N) = N
    rw [if_neg (show ¬ N = 0 by omega)]
  have hok : jsArrayLength (numUrlsOf count) = Except.ok N.toNat := by
    rw [hnum]
    unfold jsArrayLength
    rw [if_pos hlt]
  refine ⟨?_, ?_, ?_⟩
  · rw [responseRecords_ok]
    unfold issuedPairs
    rw [hok]
    dsimp only
    simp only [List.length_map, List.length_range]
    exact Int.toNat_of_nonneg (by omega)
  · intro i j hi hj hname
    rw [responseRecords_get, responseRecords_get] at hname
    exact blobNameOf_suffix_inj hname
  · intro count2 M hparse2 hM
    have hnum2 : numUrlsOf count2 = M := by
      unfold numUrlsOf
      rw [hparse2]
      show (if M = 0 then 1 else M) = M
      rw [if_neg (show ¬ M = 0 by omega)]
    have hfail : jsArrayLength (numUrlsOf count2) =
        Except.error (str "Invalid array length") := by
      rw [hnum2]
      unfold jsArrayLength
      rw [if_neg (show ¬ M < 4294967296 by omega)]
    unfold handleUploadUrls
    rw [hfail]

/-- C2 witness: a request whose count parses to 2 yields exactly two
records, and a count parsing to 2^32 is answered with the caught
RangeError as HTTP 500. -/
theorem c2_count_and_distinct_names_witness :
    ((responseRecords (handleUploadUrls (Except.ok ()) (fun _ => 0)
        (fun k => if k = 0 then str "aa" else str "bb") (fun _ => str "tok")
        (str "http://azurite:10000/devstoreaccount1") (some (str "2")))).length : Int) = 2 ∧
    handleUploadUrls (Except.ok ()) (fun _ => 0)
        (fun k => if k = 0 then str "aa" else str "bb") (fun _ => str "tok")
        (str "http://azurite:10000/devstoreaccount1") (some (str "4294967296")) =
      HttpResponse.error500 (str "Invalid array length") :=
  ⟨(c2_count_and_distinct_names (fun _ => 0)
      (fun k => if k = 0 then str "aa" else str "bb") (fun _ => str "tok")
      (str "http://azurite:10000/devstoreaccount1") (some (str "2")) 2
      (by decide) (by decide) (by decide)).1,
    (c2_count_and_distinct_names (fun _ => 0)
      (fun k => if k = 0 then str "aa" else str "bb") (fun _ => str "tok")
      (str "http://azurite:10000/devstoreaccount1") (some (str "2")) 2
      (by decide) (by decide) (by decide)).2.2 (some (str "4294967296"))
      4294967296 (by decide) (by decide)⟩

/-- C2 counterexample: with the same millisecond timestamp and the same
random suffix drawn for both records — possible, since `Date.now()` has
millisecond resolution and `Math.random()` can repeat — a count=2 request
returns two records bearing the same blobName, refuting the claim's
unconditional distinctness. -/
theorem c2_counterexample :
    (responseRecords (handleUploadUrls (Except.ok ()) (fun _ => 0) (fun _ => str "abc")
        (fun _ => str "tok") (str "http://azurite:10000/devstoreaccount1")
        (some (str "2")))).length = 2 ∧
    ((responseRecords (handleUploadUrls (Except.ok ()) (fun _ => 0) (fun _ => str "abc")
        (fun _ => str "tok") (str "http://azurite:10000/devstoreaccount1")
        (some (str "2")))).get ⟨0, by decide⟩).blobName =
      ((responseRecords (handleUploadUrls (Except.ok ()) (fun _ => 0) (fun _ => str "abc")
        (fun _ => str "tok") (str "http://azurite:10000/devstoreaccount1")
        (some (str "2")))).get ⟨1, by decide⟩).blobName := by
  decide

/-- C5: a request with count=0 returns a successful response with exactly
one record (`parseInt` yields the falsy 0, replaced by the default 1),
and a request with any negative integer count returns a successful
response whose urls array is empty; neither shape reaches the error
branch. -/
theorem c5_zero_and_negative_count (clock : Nat → Nat) (rand : Nat → JStr)
    (tokStr : SASQueryParams → JStr) (endpoint : JStr) :
    handleUploadUrls (Except.ok ()) clock rand tokStr endpoint (some (str "0")) =
      HttpResponse.json [(generateRecord clock rand tokStr endpoint 0).2] ∧
    ∀ (count : Option JStr) (n : Int), parseIntJS count = some n → n < 0 →
      handleUploadUrls (Except.ok ()) clock rand tokStr endpoint count =
        HttpResponse.json [] := by
  constructor
  · rfl
  · intro count n hparse hneg
    have hnum : numUrlsOf count = n := by
      unfold numUrlsOf
      rw [hparse]
      show (if n = 0 then 1 else n) = n
      rw [if_neg (show ¬ n = 0 by omega)]
    have hlen : jsArrayLength (numUrlsOf count) = Except.ok 0 := by
      rw [hnum]
      unfold jsArrayLength
      rw [if_pos (show n < 4294967296 by omega)]
      rw [Int.toNat_of_nonpos (le_of_lt hneg)]
    unfold handleUploadUrls issuedPairs
    rw [hlen]
    rfl

/-- C5 witness: count "-3" parses to -3 and yields a successful empty
response. -/
theorem c5_zero_and_negative_count_witness :
    parseIntJS (some (str "-3")) = some (-3) ∧
    handleUploadUrls (Except.ok ()) (fun _ => 0) (fun _ => str "s") (fun _ => str "t")
        (str "e") (some (str "-3")) = HttpResponse.json [] :=
  ⟨by decide,
    (c5_zero_and_negative_count (fun _ => 0) (fun _ => str "s") (fun _ => str "t")
      (str "e")).2 (some (str "-3")) (-3) (by decide) (by decide)⟩

/-! Facts about the connection-string parser (claim C3). -/

theorem parsePart_eq (out : List (JStr × JStr)) (p : JStr) {key value : JStr}
    {tail : List JStr} (hs : splitOnChar '=' p = key :: value :: tail)
    (hk : key ≠ []) (hv : value ≠ []) :
    parsePart out p = (key, value) :: out := by
  unfold parsePart
  rw [hs]
  exact if_pos ⟨hk, hv⟩

theorem jsGet_cons (k v key : JStr) (rest : List (JStr × JStr)) :
    jsGet ((k, v) :: rest) key = if k = key then some v else jsGet rest key := rfl

theorem jsGet_cons_ne {k key v : JStr} (rest : List (JStr × JStr)) (h : k ≠ key) :
    jsGet ((k, v) :: rest) key = jsGet rest key := by
  rw [jsGet_cons]
  exact if_neg h

theorem jsGet_cons_eq {key v : JStr} (rest : List (JStr × JStr)) :
    jsGet ((key, v) :: rest) key = some v := by
  rw [jsGet_cons]
  exact if_pos rfl

/-- Connection string carrying a given AccountKey value, in the shape the
server reads from its environment. -/
def connStrWith (key : JStr) : JStr :=
  str "AccountName=acc;AccountKey=" ++ key ++
    ';' :: str "BlobEndpoint=http://azurite:10000/devstoreaccount1"

/-- C3: `parseConnectionString` splits every segment on every '=' and
keeps only the first two pieces, so an AccountKey value written as
`ka ++ "=" ++ kb` (its first '=' separating `ka` from `kb`) is stored
truncated as `ka`; consequently the credential the server builds carries
an accountKey different from the key written in the connection string
whenever that key contains '='. -/
theorem c3_connection_string_truncation (ka kb : JStr)
    (h1 : '=' ∉ ka) (h2 : ka ≠ []) (h3 : ';' ∉ ka) (h4 : ';' ∉ kb) :
    jsGet (parseConnectionString (connStrWith (ka ++ '=' :: kb))) (str "AccountKey") =
      some ka ∧
    sharedKeyCredentialOf (connStrWith (ka ++ '=' :: kb)) = some (str "acc", ka) ∧
    ka ≠ ka ++ '=' :: kb := by
  have hseg2 : ';' ∉ str "AccountKey=" ++ (ka ++ '=' :: kb) := by
    intro m
    rcases List.mem_append.mp m with hA | hK
    · exact absurd hA (by decide)
    · rcases List.mem_append.mp hK with hk | hc
      · exact h3 hk
      · rcases List.mem_cons.mp hc with he | hk2
        · exact absurd he (by decide)
        · exact h4 hk2
  have e : connStrWith (ka ++ '=' :: kb) =
      str "AccountName=acc" ++ ';' ::
        ((str "AccountKey=" ++ (ka ++ '=' :: kb)) ++ ';' ::
          str "BlobEndpoint=http://azurite:10000/devstoreaccount1") := rfl
  have hsplit : splitOnChar ';' (connStrWith (ka ++ '=' :: kb)) =
      [str "AccountName=acc", str "AccountKey=" ++ (ka ++ '=' :: kb),
       str "BlobEndpoint=http://azurite:10000/devstoreaccount1"] := by
    rw [e, splitOnChar_append _ (by decide), splitOnChar_append _ hseg2,
      splitOnChar_not_mem (by decide)]
  have e2 : splitOnChar '=' (str "AccountKey=" ++ (ka ++ '=' :: kb)) =
      str "AccountKey" :: ka :: splitOnChar '=' kb := by
    have eassoc : str "AccountKey=" ++ (ka ++ '=' :: kb) =
        str "AccountKey" ++ '=' :: (ka ++ '=' :: kb) := rfl
    rw [eassoc, splitOnChar_append _ (by decide), splitOnChar_append _ h1]
  have hfold : parseConnectionString (connStrWith (ka ++ '=' :: kb)) =
      (str "BlobEndpoint", str "http://azurite:10000/devstoreaccount1") ::
      (str "AccountKey", ka) :: [(str "AccountName", str "acc")] := by
    unfold parseConnectionString
    rw [hsplit]
    simp only [List.foldl_cons, List.foldl_nil]
    rw [(by decide : parsePart [] (str "AccountName=acc") = [(str "AccountName", str "acc")])]
    rw [parsePart_eq _ _ e2 (by decide) h2]
    have e3 : splitOnChar '=' (str "BlobEndpoint=http://azurite:10000/devstoreaccount1") =
        str "BlobEndpoint" :: str "http://azurite:10000/devstoreaccount1" :: [] := by
      decide
    exact parsePart_eq _ _ e3 (by decide) (by decide)
  have hkey : jsGet (parseConnectionString (connStrWith (ka ++ '=' :: kb)))
      (str "AccountKey") = some ka := by
    rw [hfold, jsGet_cons_ne _ (by decide), jsGet_cons_eq]
  have hname : jsGet (parseConnectionString (connStrWith (ka ++ '=' :: kb)))
      (str "AccountName") = some (str "acc") := by
    rw [hfold, jsGet_cons_ne _ (by decide), jsGet_cons_ne _ (by decide), jsGet_cons_eq]
  refine ⟨hkey, ?_, ?_⟩
  · simp only [sharedKeyCredentialOf]
    rw [hkey, hname]
  · intro heq
    have hlen := congrArg List.length heq
    simp only [List.length_append, List.length_cons] at hlen
    omega

/-- C3 witness: the key "Eby8==" (first '=' after "Eby8") is stored
truncated to "Eby8", and the credential is built from "Eby8", not
"Eby8==". -/
theorem c3_connection_string_truncation_witness :
    jsGet (parseConnectionString (connStrWith (str "Eby8" ++ '=' :: str "=")))
        (str "AccountKey") = some (str "Eby8") ∧
    sharedKeyCredentialOf (connStrWith (str "Eby8" ++ '=' :: str "=")) =
      some (str "acc", str "Eby8") ∧
    str "Eby8" ≠ str "Eby8" ++ '=' :: str "=" :=
  c3_connection_string_truncation (str "Eby8") (str "=") (by decide) (by decide)
    (by decide) (by decide)

/-! Facts about the upload agent (claims C9, C10). -/

theorem clientLoop_length (net : Nat → FetchResult) (k : Nat)
    (urls : List UploadRecord) :
    (clientLoop net k urls).length = urls.length := by
  induction urls generalizing k with
  | nil => rfl
  | cons u us ih => simp [clientLoop, ih]

theorem clientLoop_getElem? (net : Nat → FetchResult) :
    ∀ (urls : List UploadRecord) (k i : Nat) (h : i < urls.length),
    (clientLoop net k urls)[i]? =
      some (processOne (urls.get ⟨i, h⟩) (net (k + i))) := by
  intro urls
  induction urls with
  | nil =>
    intro k i h
    exact absurd h (by simp)
  | cons u us ih =>
    intro k i h
    cases i with
    | zero => simp [clientLoop]
    | succ i =>
      have h' : i < us.length := Nat.lt_of_succ_lt_succ h
      have e : clientLoop net k (u :: us) =
          processOne u (net k) :: clientLoop net (k + 1) us := rfl
      rw [e, List.getElem?_cons_succ, ih (k + 1) i h']
      have harith : k + 1 + i = k + (i + 1) := by omega
      rw [harith]
      rfl

/-- C9: the upload agent processes the received records one at a time in
the order received — the i-th report is exactly the classification of the
i-th record against the single fetch made for it (a 2xx status is
success with object name and file URL, any other status a failure with
status code and body, a thrown transport error is caught and reported for
that record alone) — so every record yields one report, a failure or
exception never aborts the remaining transfers, no retry is made, and no
record's outcome depends on any other record's fetch. -/
theorem c9_agent_outcomes (net : Nat → FetchResult) (urls : List UploadRecord) :
    (clientLoop net 0 urls).length = urls.length ∧
    ∀ (i : Nat) (h : i < urls.length),
      (clientLoop net 0 urls)[i]? =
        some (processOne (urls.get ⟨i, h⟩) (net i)) := by
  refine ⟨clientLoop_length net 0 urls, ?_⟩
  intro i h
  have hc := clientLoop_getElem? net urls 0 i h
  rw [Nat.zero_add] at hc
  exact hc

/-- C9 witness: with two records where the first fetch answers 201 and
the second throws, the agent reports a caught error for the second record
while the first succeeded; the loop did not abort. -/
theorem c9_agent_outcomes_witness :
    (clientLoop
        (fun i => if i = 0 then FetchResult.response 201 (str "Created") (str "ok")
          else FetchResult.thrown (str "fetch failed")) 0
        [{ blobName := str "a.jpg", uploadUrl := str "ua", fileUrl := str "fa" },
         { blobName := str "b.jpg", uploadUrl := str "ub", fileUrl := str "fb" }])[1]? =
      some (UploadOutcome.errorCaught (str "b.jpg") (str "fetch failed")) :=
  (c9_agent_outcomes
    (fun i => if i = 0 then FetchResult.response 201 (str "Created") (str "ok")
      else FetchResult.thrown (str "fetch failed"))
    [{ blobName := str "a.jpg", uploadUrl := str "ua", fileUrl := str "fa" },
     { blobName := str "b.jpg", uploadUrl := str "ub", fileUrl := str "fb" }]).2 1 (by decide)

/-- C10: rewriting a server-issued upload URL of the shape
`http://azurite:10000/<path>?<token>` yields
`http://localhost:10000/<path>?<token>`: only the internal host:port part
changes, and the path and the query-string token after the '?' separator
are preserved character for character. -/
theorem c10_rewrite_preserves_token (path q : JStr) :
    clientUploadUrl (str "http://azurite:10000/" ++ path ++ '?' :: q) =
      str "http://localhost:10000/" ++ path ++ '?' :: q := by
  have h := replaceFirst_at (c := 'a') (str "zurite:10000") (str "localhost:10000")
    (str "http://") ('/' :: (path ++ '?' :: q)) (by decide)
  exact h

/-! Facts about the cleanup sweep (claims C6, C7, C8). -/

theorem deleteLoop_spec (delRes : Nat → Except JStr Unit) :
    ∀ (k : Nat) (blobs : List JStr),
    (Cleanup.deleteLoop delRes k blobs).1 = blobs ∧
    (Cleanup.deleteLoop delRes k blobs).2.1 + (Cleanup.deleteLoop delRes k blobs).2.2 =
      blobs.length := by
  intro k blobs
  induction blobs generalizing k with
  | nil => exact ⟨rfl, rfl⟩
  | cons b bs ih =>
    obtain ⟨h1, h2⟩ := ih (k + 1)
    have e : Cleanup.deleteLoop delRes k (b :: bs) =
        match delRes k with
        | Except.ok _ =>
          (b :: (Cleanup.deleteLoop delRes (k + 1) bs).1,
            (Cleanup.deleteLoop delRes (k + 1) bs).2.1 + 1,
            (Cleanup.deleteLoop delRes (k + 1) bs).2.2)
        | Except.error _ =>
          (b :: (Cleanup.deleteLoop delRes (k + 1) bs).1,
            (Cleanup.deleteLoop delRes (k + 1) bs).2.1,
            (Cleanup.deleteLoop delRes (k + 1) bs).2.2 + 1) := rfl
    rw [e]
    cases delRes k with
    | ok u =>
      refine ⟨?_, ?_⟩
      · show b :: (Cleanup.deleteLoop delRes (k + 1) bs).1 = b :: bs
        rw [h1]
      · show (Cleanup.deleteLoop delRes (k + 1) bs).2.1 + 1 +
            (Cleanup.deleteLoop delRes (k + 1) bs).2.2 = bs.length + 1
        omega
    | error msg =>
      refine ⟨?_, ?_⟩
      · show b :: (Cleanup.deleteLoop delRes (k + 1) bs).1 = b :: bs
        rw [h1]
      · show (Cleanup.deleteLoop delRes (k + 1) bs).2.1 +
            ((Cleanup.deleteLoop delRes (k + 1) bs).2.2 + 1) = bs.length + 1
        omega

theorem cleanupContainer_ok_ok (blobs : List JStr) (delRes : Nat → Except JStr Unit) :
    Cleanup.cleanupContainer (Except.ok true) (Except.ok blobs) delRes =
      if blobs.length = 0 then
        Except.ok { nothingToDo := true, found := 0, deletesAttempted := []
                    successCount := 0, failCount := 0 }
      else
        Except.ok { nothingToDo := false, found := blobs.length
                    deletesAttempted := (Cleanup.deleteLoop delRes 0 blobs).1
                    successCount := (Cleanup.deleteLoop delRes 0 blobs).2.1
                    failCount := (Cleanup.deleteLoop delRes 0 blobs).2.2 } := rfl

/-- C6: for every sweep over a non-empty namespace, the blob names passed
to delete are exactly the collected names, once each and in order — a
per-object deletion failure is only counted and never stops the loop —
and the emitted summary satisfies attempted = found and
succeeded + failed = found; the process exits 0. -/
theorem c6_sweep_accounting (blobs : List JStr) (delRes : Nat → Except JStr Unit)
    (h : blobs ≠ []) :
    Cleanup.main (Except.ok true) (Except.ok blobs) delRes =
      (0, some { nothingToDo := false, found := blobs.length
                 deletesAttempted := blobs
                 successCount := (Cleanup.deleteLoop delRes 0 blobs).2.1
                 failCount := (Cleanup.deleteLoop delRes 0 blobs).2.2 }) ∧
    (Cleanup.deleteLoop delRes 0 blobs).2.1 + (Cleanup.deleteLoop delRes 0 blobs).2.2 =
      blobs.length := by
  obtain ⟨h1, h2⟩ := deleteLoop_spec delRes 0 blobs
  refine ⟨?_, h2⟩
  have hne : ¬ blobs.length = 0 := fun e => h (List.length_eq_zero.mp e)
  unfold Cleanup.main
  rw [cleanupContainer_ok_ok, if_neg hne, h1]

/-- C6 witness: a sweep over one blob whose delete throws still attempts
that one blob, counts the failure, and exits 0 with found = 1 and
succeeded + failed = found. -/
theorem c6_sweep_accounting_witness :
    Cleanup.main (Except.ok true) (Except.ok [str "a.jpg"])
        (fun _ => Except.error (str "BlobNotFound")) =
      (0, some { nothingToDo := false, found := 1
                 deletesAttempted := [str "a.jpg"]
                 successCount :=
                   (Cleanup.deleteLoop (fun _ => Except.error (str "BlobNotFound")) 0
                     [str "a.jpg"]).2.1
                 failCount :=
                   (Cleanup.deleteLoop (fun _ => Except.error (str "BlobNotFound")) 0
                     [str "a.jpg"]).2.2 }) ∧
    (Cleanup.deleteLoop (fun _ => Except.error (str "BlobNotFound")) 0 [str "a.jpg"]).2.1 +
      (Cleanup.deleteLoop (fun _ => Except.error (str "BlobNotFound")) 0 [str "a.jpg"]).2.2 = 1 :=
  c6_sweep_accounting [str "a.jpg"] (fun _ => Except.error (str "BlobNotFound")) (by decide)

/-- C7: the sweep process exits with a non-zero status exactly when the
enumeration phase (the container existence check or the listing of the
blobs) throws; the outcomes of the individual deletions, which are caught
inside the loop, never influence the exit status. -/
theorem c7_nonzero_exit_iff_enumeration (existsRes : Except JStr Bool)
    (listRes : Except JStr (List JStr)) (delRes : Nat → Except JStr Unit) :
    (Cleanup.main existsRes listRes delRes).1 ≠ 0 ↔
      Cleanup.enumerationThrew existsRes listRes := by
  cases existsRes with
  | error e =>
    have e1 : Cleanup.main (Except.error e) listRes delRes = (1, none) := rfl
    rw [e1]
    simp [Cleanup.enumerationThrew]
  | ok b =>
    cases b with
    | false =>
      have e1 : Cleanup.main (Except.ok false) listRes delRes =
          (0, some { nothingToDo := true, found := 0, deletesAttempted := []
                     successCount := 0, failCount := 0 }) := rfl
      rw [e1]
      simp [Cleanup.enumerationThrew]
    | true =>
      cases listRes with
      | error e =>
        have e1 : Cleanup.main (Except.ok true) (Except.error e) delRes = (1, none) := rfl
        rw [e1]
        simp [Cleanup.enumerationThrew]
      | ok blobs =>
        unfold Cleanup.main
        rw [cleanupContainer_ok_ok]
        by_cases hz : blobs.length = 0
        · rw [if_pos hz]
          simp [Cleanup.enumerationThrew]
        · rw [if_neg hz]
          simp [Cleanup.enumerationThrew]

/-- C8: when the namespace does not exist, and likewise when it exists but
holds no objects, the sweep attempts zero deletions, reports nothing to
do, and exits with status 0. -/
theorem c8_nothing_to_do (listRes : Except JStr (List JStr))
    (delRes : Nat → Except JStr Unit) :
    Cleanup.main (Except.ok false) listRes delRes =
      (0, some { nothingToDo := true, found := 0, deletesAttempted := []
                 successCount := 0, failCount := 0 }) ∧
    Cleanup.main (Except.ok true) (Except.ok []) delRes =
      (0, some { nothingToDo := true, found := 0, deletesAttempted := []
                 successCount := 0, failCount := 0 }) :=
  ⟨rfl, rfl⟩
